import Mathlib

/-!
Shallow embedding of the core pipeline of `src/webapp.py` (Student Mental
Health Prediction): duration-string parsing (`convert_sleep_duration_to_float`),
column renaming / feature selection (`preprocess_user_data`), record selection
by half-open day window (`fetch_user_data`'s MongoDB query), and the
prediction orchestration (`make_prediction`, `fetch_user_data`).

Python floats are modelled by `ℚ` (the values produced here are exact
rationals such as `H + M/60`); pandas cells by `Option Value` with `none`
standing for a missing value (NaN / None); the ensemble model by an opaque
function from the preprocessed frame to a list of scores; MongoDB's
`find(query).sort('createdAt', 1)` by filtering an in-memory list of
documents and sorting ascending by timestamp.
-/

namespace Webapp

/-- A dynamically typed cell value, as a pandas cell can hold either a number
or a string (the `sleepDuration` column holds strings before conversion). -/
inductive Value where
  | num (q : ℚ)
  | str (s : String)
deriving DecidableEq, Repr

/-- A raw document / DataFrame row: an association list from field names to
values (first binding wins, as dict keys are unique). -/
abbrev Record := List (String × Value)

/-- A cell of the selected frame: `none` models NaN/None (a field absent from
this row, or a failed conversion). -/
abbrev Cell := Option Value

/-- A row of the preprocessed frame handed to the model. -/
abbrev FeatureRow := List (String × Cell)

/-! ## Duration parsing (`convert_sleep_duration_to_float`, webapp.py:132-151)

The Python function tests `'hr' in s` / `'min' in s` (substring containment)
to pick a branch, then runs `re.match` with one of the three anchored
patterns `(\d+)\s*hr\s*(\d+)\s*min`, `(\d+)\s*hr`, `(\d+)\s*min`.  Since the
character classes `\d`, `\s` and the literals `hr`/`min` are pairwise
disjoint at every decision point, Python's backtracking matcher is
equivalent to the greedy one-pass matcher embedded here. -/

/-- Python's `\s` class on the ASCII inputs at hand: space, tab, newline,
carriage return, vertical tab, form feed. -/
def isPySpace (c : Char) : Bool :=
  c = ' ' || c = '\t' || c = '\n' || c = '\r' || c = '\x0b' || c = '\x0c'

/-- Numeric value of a decimal digit character. -/
def digitVal (c : Char) : Nat := c.toNat - 48

/-- Greedy run of `\d*` with an accumulator: consumes the longest digit run
and returns its value together with the remaining input. -/
def parseNatAcc : Nat → List Char → Nat × List Char
  | acc, [] => (acc, [])
  | acc, c :: cs =>
    if c.isDigit then parseNatAcc (acc * 10 + digitVal c) cs else (acc, c :: cs)

/-- `(\d+)`: at least one digit, greedy. -/
def matchDigits : List Char → Option (Nat × List Char)
  | [] => none
  | c :: cs => if c.isDigit then some (parseNatAcc (digitVal c) cs) else none

/-- `\s*`: greedily drop whitespace. -/
def skipWs : List Char → List Char
  | [] => []
  | c :: cs => if isPySpace c then skipWs cs else c :: cs

/-- Does the first list occur at the head of the second? -/
def leadsWith : List Char → List Char → Bool
  | [], _ => true
  | _ :: _, [] => false
  | a :: as, b :: bs => a == b && leadsWith as bs

/-- Match a literal token at the head of the input, returning the rest. -/
def matchLit (lit cs : List Char) : Option (List Char) :=
  if leadsWith lit cs then some (cs.drop lit.length) else none

def hrTok : List Char := ['h', 'r']

def minTok : List Char := ['m', 'i', 'n']

/-- Python's substring test `needle in haystack`. -/
def containsTok (n : List Char) : List Char → Bool
  | [] => n.isEmpty
  | c :: cs => leadsWith n (c :: cs) || containsTok n cs

/-- `re.match(r"(\d+)\s*hr", s)`: anchored prefix match, trailing text
ignored. Returns the hours token value. -/
def matchHrRe (cs : List Char) : Option Nat :=
  match matchDigits cs with
  | none => none
  | some (h, r1) =>
    match matchLit hrTok (skipWs r1) with
    | none => none
    | some _ => some h

/-- `re.match(r"(\d+)\s*min", s)`. Returns the minutes token value. -/
def matchMinRe (cs : List Char) : Option Nat :=
  match matchDigits cs with
  | none => none
  | some (m, r1) =>
    match matchLit minTok (skipWs r1) with
    | none => none
    | some _ => some m

/-- `re.match(r"(\d+)\s*hr\s*(\d+)\s*min", s)`. Returns (hours, minutes). -/
def matchHrMinRe (cs : List Char) : Option (Nat × Nat) :=
  match matchDigits cs with
  | none => none
  | some (h, r1) =>
    match matchLit hrTok (skipWs r1) with
    | none => none
    | some r2 =>
      match matchDigits (skipWs r2) with
      | none => none
      | some (m, r3) =>
        match matchLit minTok (skipWs r3) with
        | none => none
        | some _ => some (h, m)

/-- The body of `convert_sleep_duration_to_float` on a string input.
`hours, minutes = 0, 0` initially; each branch overwrites them only when its
regex matches (a failed match in the first branch leaves the zeros — the
silent-0.0 path); in the `hr`-only and `min`-only branches a failed match
makes `.group(1)` raise `AttributeError`, which the `except` clause turns
into `None` (modelled by `none`). The final `return hours + minutes / 60`
is the `some` value. -/
def convertDuration (cs : List Char) : Option ℚ :=
  let hm : Option (Nat × Nat) :=
    if containsTok hrTok cs && containsTok minTok cs then
      match matchHrMinRe cs with
      | some (h, m) => some (h, m)
      | none => some (0, 0)
    else if containsTok hrTok cs then
      match matchHrRe cs with
      | some h => some (h, 0)
      | none => none
    else if containsTok minTok cs then
      match matchMinRe cs with
      | some m => some (0, m)
      | none => none
    else some (0, 0)
  match hm with
  | some (h, m) => some ((h : ℚ) + (m : ℚ) / 60)
  | none => none

/-- `convert_sleep_duration_to_float` (webapp.py:132-151). On a non-string
input (e.g. a NaN cell) the very first expression `'hr' in duration_str`
raises `TypeError`, caught by the handler which returns `None`. -/
def convert_sleep_duration_to_float (v : Value) : Option ℚ :=
  match v with
  | .str s => convertDuration s.data
  | .num _ => none

/-! ## Feature mapping (`preprocess_user_data`, webapp.py:99-130)

pandas semantics embedded: a DataFrame built from a list of row-dicts has as
columns the union of the rows' keys in first-appearance order (each dict has
unique keys, so this label list is duplicate-free), a row's cell being
`none` (NaN) when the row lacks the key; `df.rename(columns=m)` relabels
the columns through the mapping and can thereby create *duplicate* column
labels (e.g. when a record carries an extra field already named
`Oxygen_Saturation` next to `oxygenAvg`); `df[features]` raises `KeyError`
— the only error path, modelled as `SchemaError` — when some requested
label is absent from the frame, and otherwise returns, for each requested
label in order, *every* column bearing that label (duplicates retained, in
frame order); `series.apply(f)` applies `f` cell-wise, a NaN cell making
the Python function raise `TypeError` internally and yield `None` (again a
`none` cell).  A frame row is represented as its label/cell pairs, aligned
with the frame's label list, so duplicate labels are carried faithfully. -/

/-- The `column_mapping` dict (webapp.py:102-108). -/
def column_mapping : List (String × String) :=
  [("heartRateAvg", "Heart_Rate_BPM"),
   ("oxygenAvg", "Oxygen_Saturation"),
   ("temperature", "Body_Temperature_Celsius"),
   ("totalSteps", "Physical_Activity_Steps"),
   ("sleepDuration", "Sleep_Duration_Hours")]

/-- `mapping.get(k, k)`: rename a column name, leaving unmapped names. -/
def renameKey (k : String) : String := (column_mapping.lookup k).getD k

/-- The `features` list (webapp.py:115-116): the model's schema, fixed order. -/
def features : List String :=
  ["Heart_Rate_BPM", "Sleep_Duration_Hours", "Physical_Activity_Steps",
   "Oxygen_Saturation", "Body_Temperature_Celsius"]

/-- Cell of record `r` under key `k` (missing key = NaN = `none`). -/
def lookupField (r : Record) (k : String) : Cell := r.lookup k

/-- Append a key to the column list unless already present (how pandas
accumulates the column index from row-dict keys). -/
def insertKey (a : List String) (k : String) : List String :=
  if k ∈ a then a else a ++ [k]

/-- Add one record's keys to the accumulated column list, in field order. -/
def addKeys (acc : List String) (r : Record) : List String :=
  r.foldl (fun a kv => insertKey a kv.1) acc

/-- The column labels of `pd.DataFrame(records)`: the union of the records'
keys in first-appearance order (duplicate-free, since dict keys are
unique). -/
def frameCols (ud : List Record) : List String := ud.foldl addKeys []

/-- The frame row of record `r`: one labelled cell per frame column. -/
def frameRow (cols : List String) (r : Record) : FeatureRow :=
  cols.map (fun c => (c, lookupField r c))

/-- Frame-level effect of `user_data.rename(columns=column_mapping)` on a
row: every label renamed through the mapping.  Distinct labels may rename
to the same target, leaving duplicate labels in the frame. -/
def renameRow (row : FeatureRow) : FeatureRow :=
  row.map (fun kv => (renameKey kv.1, kv.2))

/-- Row-wise effect of `user_data[features]`: for each requested label in
schema order, every cell of the row whose (renamed) label matches — a label
duplicated in the frame contributes all of its occurrences, in frame
order. -/
def selectCells (row : FeatureRow) : FeatureRow :=
  features.flatMap (fun f => row.filter (fun kv => kv.1 == f))

/-- Row-wise effect of
`user_data['Sleep_Duration_Hours'].apply(convert_sleep_duration_to_float)`:
each sleep-labelled cell is replaced by its converted value (a NaN cell,
and a cell whose conversion returns `None`, both end as `none`). -/
def convertRow (row : FeatureRow) : FeatureRow :=
  row.map (fun kv =>
    if kv.1 = "Sleep_Duration_Hours" then
      (kv.1, kv.2.bind (fun v => (convert_sleep_duration_to_float v).map Value.num))
    else kv)

/-- The typed failure of the mapping layer: pandas `KeyError` on column
selection, the spec's `SchemaError`. -/
inductive PipeError where
  | schemaError
deriving DecidableEq, Repr

/-- What `preprocess_user_data` does to the row of record `r` in a frame
whose (pre-rename) columns are `cols`: build the row, rename its labels,
select the feature columns, convert the sleep cells. -/
def frameRowFun (cols : List String) (r : Record) : FeatureRow :=
  convertRow (selectCells (renameRow (frameRow cols r)))

/-- `preprocess_user_data` (webapp.py:99-130): rename the frame's columns,
select the five feature columns (KeyError → `SchemaError` when a feature
label is absent from the renamed frame), convert the sleep-duration
column.  All three steps act row-independently on the frame built from the
record list, so the result is the row-wise image under `frameRowFun` of the
shared column layout. -/
def preprocess_user_data (ud : List Record) : Except PipeError (List FeatureRow) :=
  if ∀ f ∈ features, f ∈ (frameCols ud).map renameKey then
    .ok (ud.map (frameRowFun (frameCols ud)))
  else
    .error .schemaError

/-- Idealized per-record renaming (not the frame semantics): the record's
own keys renamed through the mapping.  Used to state hypotheses and the
per-record projection that the mapper performs when renaming creates no
duplicate labels. -/
def renameRecord (r : Record) : Record := r.map (fun kv => (renameKey kv.1, kv.2))

/-- Idealized per-record selection (not the frame semantics): exactly the
five feature fields, in schema order, each resolved in the record alone. -/
def selectRow (r : Record) : FeatureRow :=
  features.map (fun f => (f, lookupField r f))

/-- The idealized per-record projection: what `preprocess_user_data` does to
each record whenever no two frame columns rename to the same feature
label. -/
def mapRow (r : Record) : FeatureRow := convertRow (selectRow (renameRecord r))

/-! ## Prediction (`make_prediction`, webapp.py:153-166) -/

/-- The opaque loaded model: `model.predict` on the preprocessed frame,
returning one scalar per row. -/
abbrev Model := List FeatureRow → List ℚ

/-- `make_prediction` (webapp.py:153-166) instrumented with the number of
times the model is invoked. Preprocessing failure is caught by the handler
(→ `none`, model never called). `model.predict(...)[0]` on an empty
prediction list raises `IndexError`, also caught (→ `none`, after one
call). -/
def make_prediction (model : Model) (ud : List Record) : Option ℚ × Nat :=
  match preprocess_user_data ud with
  | .error _ => (none, 0)
  | .ok frame =>
    match model frame with
    | [] => (none, 1)
    | p :: _ => (some p, 1)

/-! ## Record selection and orchestration (`fetch_user_data`, webapp.py:54-97)

A stored document, with the query-relevant fields (`_id`, `createdAt`)
explicit and the biometric payload as the row handed to pandas.  The date
string parsed by `strptime(date, "%Y-%m-%d")` is modelled as a day index;
midnight of that date is `date * 86400` seconds and `timedelta(days=1)`
adds `86400`. -/
structure DBRecord where
  uid : String
  createdAt : Nat
  fields : Record
deriving DecidableEq, Repr

def secondsPerDay : Nat := 86400

/-- The MongoDB query document (webapp.py:64-70): `_id` equals the user key
and `start_date <= createdAt < end_date`. -/
def matchesQuery (uid : String) (date : Nat) (r : DBRecord) : Bool :=
  r.uid == uid
    && decide (date * secondsPerDay ≤ r.createdAt)
    && decide (r.createdAt < date * secondsPerDay + secondsPerDay)

/-- Ascending-timestamp order used by `.sort('createdAt', 1)`. -/
def byTime (a b : DBRecord) : Prop := a.createdAt ≤ b.createdAt

instance : DecidableRel byTime := fun a b => Nat.decLe a.createdAt b.createdAt

instance : IsTotal DBRecord byTime := ⟨fun a b => Nat.le_total a.createdAt b.createdAt⟩

instance : IsTrans DBRecord byTime := ⟨fun _ _ _ h1 h2 => Nat.le_trans h1 h2⟩

/-- `db.dashboards.find(query).sort('createdAt', 1)` (webapp.py:72) over an
in-memory list of documents: filter by the query, sort ascending by
timestamp. -/
def fetch_records (db : List DBRecord) (uid : String) (date : Nat) : List DBRecord :=
  List.insertionSort byTime (db.filter (matchesQuery uid date))

/-- The request outcome: no data for the date (webapp.py:74-76), a reported
prediction failure (webapp.py:90-91), or a score. -/
inductive Outcome where
  | noData
  | failed
  | success (score : ℚ)
deriving DecidableEq, Repr

/-- `fetch_user_data` (webapp.py:54-97) instrumented with the number of
model invocations: select the day's records; if none, report no data
without predicting; otherwise build the frame from the documents and run
`make_prediction`. -/
def fetch_user_data (db : List DBRecord) (uid : String) (date : Nat)
    (model : Model) : Outcome × Nat :=
  let recs := fetch_records db uid date
  if recs.isEmpty then (.noData, 0)
  else
    match make_prediction model (recs.map DBRecord.fields) with
    | (none, n) => (.failed, n)
    | (some q, n) => (.success q, n)

/-! ## Token predicates and values -/

/-- Every character is a decimal digit. -/
def allDigits (d : List Char) : Bool := d.all Char.isDigit

/-- Every character is Python whitespace. -/
def allWs (w : List Char) : Bool := w.all isPySpace

/-- The head (if any) is not a digit. -/
def headNotDigit : List Char → Bool
  | [] => true
  | c :: _ => !c.isDigit

/-- The head (if any) is not whitespace. -/
def headNotWs : List Char → Bool
  | [] => true
  | c :: _ => !(isPySpace c)

/-- Numeric value of a digit token, as `int()` computes it. -/
def digitsVal (d : List Char) : Nat :=
  d.foldl (fun a c => a * 10 + digitVal c) 0

/-! ## Sample inputs used by the witnesses -/

/-- The end-to-end record of the spec's scenario (section 8), with one extra
field beyond the five sources, as records may carry arbitrary extra fields. -/
def sampleRecord : Record :=
  [("heartRateAvg", .num 72), ("oxygenAvg", .num 97), ("temperature", .num (183/5)),
   ("totalSteps", .num 5000), ("sleepDuration", .str "6 hr 30 min"),
   ("deviceId", .str "w1")]

/-- A record lacking `oxygenAvg` (and every other spelling of the oxygen
column). -/
def sampleMissing : Record :=
  [("heartRateAvg", .num 70), ("temperature", .num (365/10)),
   ("totalSteps", .num 4000), ("sleepDuration", .str "5 hr")]

/-- A record that carries the extra field `Oxygen_Saturation` alongside
`oxygenAvg`: renaming then produces two columns labelled
`Oxygen_Saturation`. -/
def recordDupOxygen : Record :=
  [("heartRateAvg", .num 72), ("oxygenAvg", .num 97), ("temperature", .num (183/5)),
   ("totalSteps", .num 5000), ("sleepDuration", .str "6 hr 30 min"),
   ("Oxygen_Saturation", .num 95)]

/-- The six labels that selection produces from a frame with a duplicated
oxygen column. -/
def sixLabels : List String :=
  ["Heart_Rate_BPM", "Sleep_Duration_Hours", "Physical_Activity_Steps",
   "Oxygen_Saturation", "Oxygen_Saturation", "Body_Temperature_Celsius"]

/-- A stub model returning the constant prediction 7 for every row. -/
def stubModel : Model := fun _ => [7]

/-- One matching record for user U1 at 08:00 of day 0 (the spec's scenario). -/
def dbOneRecord : List DBRecord := [⟨"U1", 28800, sampleRecord⟩]

/-- Records exactly at the window boundaries of day 0: midnight (included)
and midnight of the next day (excluded). -/
def dbBoundary : List DBRecord :=
  [⟨"U1", secondsPerDay, sampleRecord⟩, ⟨"U1", 0, sampleRecord⟩]

/-- A store whose only record for U1 lies outside day 0. -/
def dbOtherDay : List DBRecord := [⟨"U1", 200000, sampleRecord⟩]

/-! ## Lemmas about the greedy matchers -/

lemma pySpace_not_digit {c : Char} (h : isPySpace c = true) : c.isDigit = false := by
  simp only [isPySpace, Bool.or_eq_true, decide_eq_true_eq] at h
  rcases h with ((((h | h) | h) | h) | h) | h <;> subst h <;> decide

lemma digit_not_pySpace {c : Char} (h : c.isDigit = true) : isPySpace c = false := by
  cases hps : isPySpace c
  · rfl
  · simp [pySpace_not_digit hps] at h

lemma parseNatAcc_append (d : List Char) (hd : allDigits d = true) :
    ∀ acc rest, headNotDigit rest = true →
      parseNatAcc acc (d ++ rest) = (d.foldl (fun a c => a * 10 + digitVal c) acc, rest) := by
  induction d with
  | nil =>
    intro acc rest hr
    cases rest with
    | nil => simp [parseNatAcc]
    | cons c cs =>
      simp only [headNotDigit, Bool.not_eq_true'] at hr
      simp [parseNatAcc, hr]
  | cons c cs ih =>
    intro acc rest hr
    simp only [allDigits, List.all_cons, Bool.and_eq_true] at hd
    simp only [List.cons_append, parseNatAcc, hd.1, if_true, List.foldl_cons]
    exact ih hd.2 _ rest hr

lemma matchDigits_append (d rest : List Char) (hne : d ≠ []) (hd : allDigits d = true)
    (hr : headNotDigit rest = true) :
    matchDigits (d ++ rest) = some (digitsVal d, rest) := by
  cases d with
  | nil => exact absurd rfl hne
  | cons c cs =>
    simp only [allDigits, List.all_cons, Bool.and_eq_true] at hd
    simp only [List.cons_append, matchDigits, hd.1, if_true]
    rw [parseNatAcc_append cs hd.2 _ rest hr]
    simp [digitsVal]

lemma skipWs_append (w : List Char) (hw : allWs w = true) (rest : List Char)
    (hr : headNotWs rest = true) : skipWs (w ++ rest) = rest := by
  induction w with
  | nil =>
    cases rest with
    | nil => rfl
    | cons c cs =>
      simp only [headNotWs, Bool.not_eq_true'] at hr
      simp [skipWs, hr]
  | cons x xs ih =>
    simp only [allWs, List.all_cons, Bool.and_eq_true] at hw
    simp only [List.cons_append, skipWs, hw.1, if_true]
    exact ih hw.2

lemma leadsWith_append (n r : List Char) : leadsWith n (n ++ r) = true := by
  induction n with
  | nil => rfl
  | cons a as ih => simp [leadsWith, ih]

lemma matchLit_append (lit rest : List Char) : matchLit lit (lit ++ rest) = some rest := by
  simp [matchLit, leadsWith_append, List.drop_left]

lemma containsTok_cons (n : List Char) (c : Char) (cs : List Char)
    (h : containsTok n cs = true) : containsTok n (c :: cs) = true := by
  simp [containsTok, h]

lemma containsTok_append_left (n t cs : List Char) (h : containsTok n cs = true) :
    containsTok n (t ++ cs) = true := by
  induction t with
  | nil => exact h
  | cons a as ih => exact containsTok_cons n a (as ++ cs) ih

lemma containsTok_self (n r : List Char) (hn : n ≠ []) : containsTok n (n ++ r) = true := by
  cases n with
  | nil => exact absurd rfl hn
  | cons a as =>
    simp only [containsTok, List.cons_append, Bool.or_eq_true]
    left
    exact leadsWith_append (a :: as) r

lemma mem_of_containsTok {c : Char} {n' cs : List Char}
    (h : containsTok (c :: n') cs = true) : c ∈ cs := by
  induction cs with
  | nil => simp [containsTok, List.isEmpty] at h
  | cons d ds ih =>
    simp only [containsTok, Bool.or_eq_true] at h
    rcases h with h | h
    · simp only [leadsWith, Bool.and_eq_true, beq_iff_eq] at h
      exact h.1 ▸ List.mem_cons_self d ds
    · exact List.mem_cons_of_mem d (ih h)

lemma not_containsTok {c : Char} (n' : List Char) {cs : List Char} (h : c ∉ cs) :
    containsTok (c :: n') cs = false := by
  cases hct : containsTok (c :: n') cs
  · rfl
  · exact absurd (mem_of_containsTok hct) h

lemma not_mem_digits {c : Char} (hc : c.isDigit = false) {d : List Char}
    (hd : allDigits d = true) : c ∉ d := by
  intro hmem
  simp only [allDigits, List.all_eq_true] at hd
  have := hd c hmem
  simp [hc] at this

lemma not_mem_ws {c : Char} (hc : isPySpace c = false) {w : List Char}
    (hw : allWs w = true) : c ∉ w := by
  intro hmem
  simp only [allWs, List.all_eq_true] at hw
  have := hw c hmem
  simp [hc] at this

lemma headNotDigit_ws_append (w : List Char) (hw : allWs w = true) (c : Char)
    (hc : c.isDigit = false) (r : List Char) :
    headNotDigit (w ++ (c :: r)) = true := by
  cases w with
  | nil => simp [headNotDigit, hc]
  | cons x xs =>
    simp only [allWs, List.all_cons, Bool.and_eq_true] at hw
    simp [headNotDigit, pySpace_not_digit hw.1]

lemma headNotWs_cons (c : Char) (hc : isPySpace c = false) (r : List Char) :
    headNotWs (c :: r) = true := by
  simp [headNotWs, hc]

/-! ## Shape lemmas: the three anchored regexes on well-formed prefixes -/

lemma matchHrRe_shape (d w rest : List Char) (hne : d ≠ []) (hd : allDigits d = true)
    (hw : allWs w = true) :
    matchHrRe (d ++ (w ++ (hrTok ++ rest))) = some (digitsVal d) := by
  have e1 : matchDigits (d ++ (w ++ (hrTok ++ rest)))
      = some (digitsVal d, w ++ (hrTok ++ rest)) :=
    matchDigits_append d _ hne hd (headNotDigit_ws_append w hw 'h' (by decide) ('r' :: rest))
  have e2 : skipWs (w ++ (hrTok ++ rest)) = hrTok ++ rest :=
    skipWs_append w hw _ (headNotWs_cons 'h' (by decide) ('r' :: rest))
  have e3 : matchLit hrTok (hrTok ++ rest) = some rest := matchLit_append hrTok rest
  simp [matchHrRe, e1, e2, e3]

lemma matchMinRe_shape (d w rest : List Char) (hne : d ≠ []) (hd : allDigits d = true)
    (hw : allWs w = true) :
    matchMinRe (d ++ (w ++ (minTok ++ rest))) = some (digitsVal d) := by
  have e1 : matchDigits (d ++ (w ++ (minTok ++ rest)))
      = some (digitsVal d, w ++ (minTok ++ rest)) :=
    matchDigits_append d _ hne hd
      (headNotDigit_ws_append w hw 'm' (by decide) ('i' :: 'n' :: rest))
  have e2 : skipWs (w ++ (minTok ++ rest)) = minTok ++ rest :=
    skipWs_append w hw _ (headNotWs_cons 'm' (by decide) ('i' :: 'n' :: rest))
  have e3 : matchLit minTok (minTok ++ rest) = some rest := matchLit_append minTok rest
  simp [matchMinRe, e1, e2, e3]

lemma matchHrMinRe_shape (d1 w1 w2 d2 w3 rest : List Char)
    (h1 : d1 ≠ []) (hd1 : allDigits d1 = true)
    (h2 : d2 ≠ []) (hd2 : allDigits d2 = true)
    (hw1 : allWs w1 = true) (hw2 : allWs w2 = true) (hw3 : allWs w3 = true) :
    matchHrMinRe (d1 ++ (w1 ++ (hrTok ++ (w2 ++ (d2 ++ (w3 ++ (minTok ++ rest))))))) =
      some (digitsVal d1, digitsVal d2) := by
  obtain ⟨c2, d2', rfl⟩ : ∃ c2 d2', d2 = c2 :: d2' := by
    cases d2 with
    | nil => exact absurd rfl h2
    | cons c cs => exact ⟨c, cs, rfl⟩
  have hc2 : c2.isDigit = true := by
    simp only [allDigits, List.all_cons, Bool.and_eq_true] at hd2
    exact hd2.1
  have e1 : matchDigits (d1 ++ (w1 ++ (hrTok ++ (w2 ++ ((c2 :: d2') ++ (w3 ++ (minTok ++ rest)))))))
      = some (digitsVal d1, w1 ++ (hrTok ++ (w2 ++ ((c2 :: d2') ++ (w3 ++ (minTok ++ rest)))))) :=
    matchDigits_append d1 _ h1 hd1
      (headNotDigit_ws_append w1 hw1 'h' (by decide) _)
  have e2 : skipWs (w1 ++ (hrTok ++ (w2 ++ ((c2 :: d2') ++ (w3 ++ (minTok ++ rest))))))
      = hrTok ++ (w2 ++ ((c2 :: d2') ++ (w3 ++ (minTok ++ rest)))) :=
    skipWs_append w1 hw1 _ (headNotWs_cons 'h' (by decide) _)
  have e3 : matchLit hrTok (hrTok ++ (w2 ++ ((c2 :: d2') ++ (w3 ++ (minTok ++ rest)))))
      = some (w2 ++ ((c2 :: d2') ++ (w3 ++ (minTok ++ rest)))) := matchLit_append hrTok _
  have e4 : skipWs (w2 ++ ((c2 :: d2') ++ (w3 ++ (minTok ++ rest))))
      = (c2 :: d2') ++ (w3 ++ (minTok ++ rest)) :=
    skipWs_append w2 hw2 _ (headNotWs_cons c2 (digit_not_pySpace hc2) _)
  have e5 : matchDigits ((c2 :: d2') ++ (w3 ++ (minTok ++ rest)))
      = some (digitsVal (c2 :: d2'), w3 ++ (minTok ++ rest)) :=
    matchDigits_append (c2 :: d2') _ (by simp) hd2
      (headNotDigit_ws_append w3 hw3 'm' (by decide) _)
  have e6 : skipWs (w3 ++ (minTok ++ rest)) = minTok ++ rest :=
    skipWs_append w3 hw3 _ (headNotWs_cons 'm' (by decide) _)
  have e7 : matchLit minTok (minTok ++ rest) = some rest := matchLit_append minTok rest
  simp only [List.cons_append, List.append_assoc] at e1 e2 e3 e4 e5
  simp [matchHrMinRe, e1, e2, e3, e4, e5, e6, e7]

/-! ## Substring containment on the well-formed shapes -/

lemma contains_hr_hrmin (d1 w1 w2 d2 w3 rest : List Char) :
    containsTok hrTok
      (d1 ++ (w1 ++ (hrTok ++ (w2 ++ (d2 ++ (w3 ++ (minTok ++ rest))))))) = true := by
  apply containsTok_append_left
  apply containsTok_append_left
  exact containsTok_self hrTok _ (by decide)

lemma contains_min_hrmin (d1 w1 w2 d2 w3 rest : List Char) :
    containsTok minTok
      (d1 ++ (w1 ++ (hrTok ++ (w2 ++ (d2 ++ (w3 ++ (minTok ++ rest))))))) = true := by
  apply containsTok_append_left
  apply containsTok_append_left
  apply containsTok_append_left
  apply containsTok_append_left
  apply containsTok_append_left
  apply containsTok_append_left
  exact containsTok_self minTok _ (by decide)

lemma contains_hr_dwhr (d w rest : List Char) :
    containsTok hrTok (d ++ (w ++ (hrTok ++ rest))) = true := by
  apply containsTok_append_left
  apply containsTok_append_left
  exact containsTok_self hrTok _ (by decide)

lemma contains_min_dwmin (d w rest : List Char) :
    containsTok minTok (d ++ (w ++ (minTok ++ rest))) = true := by
  apply containsTok_append_left
  apply containsTok_append_left
  exact containsTok_self minTok _ (by decide)

lemma no_min_in_dwhr (d w : List Char) (hd : allDigits d = true) (hw : allWs w = true) :
    containsTok minTok (d ++ (w ++ hrTok)) = false := by
  apply not_containsTok
  simp only [List.mem_append]
  rintro (hm | hm | hm)
  · exact not_mem_digits (by decide) hd hm
  · exact not_mem_ws (by decide) hw hm
  · revert hm
    decide

lemma no_hr_in_dwmin (d w : List Char) (hd : allDigits d = true) (hw : allWs w = true) :
    containsTok hrTok (d ++ (w ++ minTok)) = false := by
  apply not_containsTok
  simp only [List.mem_append]
  rintro (hm | hm | hm)
  · exact not_mem_digits (by decide) hd hm
  · exact not_mem_ws (by decide) hw hm
  · revert hm
    decide

/-! ## Value-level shape lemmas for `convertDuration` -/

lemma convert_hrmin_shape (d1 w1 w2 d2 w3 rest : List Char)
    (h1 : d1 ≠ []) (hd1 : allDigits d1 = true)
    (h2 : d2 ≠ []) (hd2 : allDigits d2 = true)
    (hw1 : allWs w1 = true) (hw2 : allWs w2 = true) (hw3 : allWs w3 = true) :
    convertDuration (d1 ++ (w1 ++ (hrTok ++ (w2 ++ (d2 ++ (w3 ++ (minTok ++ rest))))))) =
      some ((digitsVal d1 : ℚ) + (digitsVal d2 : ℚ) / 60) := by
  have hhr := contains_hr_hrmin d1 w1 w2 d2 w3 rest
  have hmin := contains_min_hrmin d1 w1 w2 d2 w3 rest
  have hm := matchHrMinRe_shape d1 w1 w2 d2 w3 rest h1 hd1 h2 hd2 hw1 hw2 hw3
  simp [convertDuration, hhr, hmin, hm]

lemma convert_hr_shape (d w rest : List Char)
    (hne : d ≠ []) (hd : allDigits d = true) (hw : allWs w = true)
    (hmin : containsTok minTok (d ++ (w ++ (hrTok ++ rest))) = false) :
    convertDuration (d ++ (w ++ (hrTok ++ rest))) = some (digitsVal d : ℚ) := by
  have hhr := contains_hr_dwhr d w rest
  have hm := matchHrRe_shape d w rest hne hd hw
  simp [convertDuration, hhr, hmin, hm]

lemma convert_min_shape (d w rest : List Char)
    (hne : d ≠ []) (hd : allDigits d = true) (hw : allWs w = true)
    (hhr : containsTok hrTok (d ++ (w ++ (minTok ++ rest))) = false) :
    convertDuration (d ++ (w ++ (minTok ++ rest))) = some ((digitsVal d : ℚ) / 60) := by
  have hmin := contains_min_dwmin d w rest
  have hm := matchMinRe_shape d w rest hne hd hw
  simp [convertDuration, hhr, hmin, hm]

/-! ## Lemmas about the frame layer -/

lemma mem_insertKey_iff {x : String} (a : List String) (k : String) :
    x ∈ insertKey a k ↔ x ∈ a ∨ x = k := by
  unfold insertKey
  split
  next hk =>
    constructor
    · exact Or.inl
    · rintro (h | rfl)
      · exact h
      · exact hk
  next => simp [List.mem_append]

lemma mem_addKeys_iff (r : Record) : ∀ (acc : List String) (x : String),
    x ∈ addKeys acc r ↔ x ∈ acc ∨ ∃ kv ∈ r, kv.1 = x := by
  induction r with
  | nil =>
    intro acc x
    simp [addKeys]
  | cons kv rest ih =>
    intro acc x
    show x ∈ addKeys (insertKey acc kv.1) rest ↔ _
    rw [ih, mem_insertKey_iff]
    constructor
    · rintro ((h | rfl) | ⟨kv', h1, h2⟩)
      · exact Or.inl h
      · exact Or.inr ⟨kv, List.mem_cons_self _ _, rfl⟩
      · exact Or.inr ⟨kv', List.mem_cons_of_mem _ h1, h2⟩
    · rintro (h | ⟨kv', h1, h2⟩)
      · exact Or.inl (Or.inl h)
      · rcases List.mem_cons.mp h1 with rfl | h1
        · exact Or.inl (Or.inr h2.symm)
        · exact Or.inr ⟨kv', h1, h2⟩

lemma mem_frameCols (ud : List Record) (x : String) :
    x ∈ frameCols ud ↔ ∃ r ∈ ud, ∃ kv ∈ r, kv.1 = x := by
  have main : ∀ (l : List Record) (acc : List String),
      x ∈ l.foldl addKeys acc ↔ x ∈ acc ∨ ∃ r ∈ l, ∃ kv ∈ r, kv.1 = x := by
    intro l
    induction l with
    | nil =>
      intro acc
      simp
    | cons r rest ih =>
      intro acc
      show x ∈ rest.foldl addKeys (addKeys acc r) ↔ _
      rw [ih, mem_addKeys_iff]
      constructor
      · rintro ((h | hkv) | ⟨r', h1, h2⟩)
        · exact Or.inl h
        · exact Or.inr ⟨r, List.mem_cons_self _ _, hkv⟩
        · exact Or.inr ⟨r', List.mem_cons_of_mem _ h1, h2⟩
      · rintro (h | ⟨r', h1, h2⟩)
        · exact Or.inl (Or.inl h)
        · rcases List.mem_cons.mp h1 with rfl | h1
          · exact Or.inl (Or.inr h2)
          · exact Or.inr ⟨r', h1, h2⟩
  simpa using main ud []

lemma lookup_rename_eq {r : Record} {f c0 : String} (hc0 : renameKey c0 = f)
    (huniq : ∀ kv ∈ r, renameKey kv.1 = f → kv.1 = c0) :
    lookupField (renameRecord r) f = lookupField r c0 := by
  induction r with
  | nil => rfl
  | cons kv rest ih =>
    by_cases h : renameKey kv.1 = f
    · have hk : kv.1 = c0 := huniq kv (List.mem_cons_self _ _) h
      simp [lookupField, renameRecord, List.lookup, h, ← hk]
    · have hne : kv.1 ≠ c0 := by
        intro hcontra
        exact h (hcontra ▸ hc0)
      have hb1 : (f == renameKey kv.1) = false := by
        simp [Ne.symm h]
      have hb2 : (c0 == kv.1) = false := by
        simp [Ne.symm hne]
      have ih2 := ih (fun kv' hkv' => huniq kv' (List.mem_cons_of_mem _ hkv'))
      simpa [lookupField, renameRecord, List.lookup, hb1, hb2] using ih2

lemma lookup_rename_isSome {r : Record} {f : String}
    (h : ∃ kv ∈ r, renameKey kv.1 = f) :
    (lookupField (renameRecord r) f).isSome = true := by
  induction r with
  | nil =>
    rcases h with ⟨kv, hkv, -⟩
    simp at hkv
  | cons kv rest ih =>
    by_cases hh : renameKey kv.1 = f
    · simp [lookupField, renameRecord, List.lookup, hh]
    · have hb : (f == renameKey kv.1) = false := by
        simp [Ne.symm hh]
      rcases h with ⟨kv', hkv', hf⟩
      rcases List.mem_cons.mp hkv' with rfl | hmem
      · exact absurd hf hh
      · have := ih ⟨kv', hmem, hf⟩
        simpa [lookupField, renameRecord, List.lookup, hb] using this

lemma filter_eq_singleton {cols : List String} {f : String}
    (hcount : (cols.filter (fun c => renameKey c == f)).length ≤ 1)
    (hex : ∃ c ∈ cols, renameKey c = f) :
    ∃ c0, cols.filter (fun c => renameKey c == f) = [c0] ∧ renameKey c0 = f := by
  rcases hex with ⟨c, hc, hf⟩
  have hmem : c ∈ cols.filter (fun c => renameKey c == f) :=
    List.mem_filter.mpr ⟨hc, by simp [hf]⟩
  have hne : cols.filter (fun c => renameKey c == f) ≠ [] := by
    intro hnil
    rw [hnil] at hmem
    simp at hmem
  have hpos : 0 < (cols.filter (fun c => renameKey c == f)).length :=
    List.length_pos.mpr hne
  have hlen1 : (cols.filter (fun c => renameKey c == f)).length = 1 := by omega
  rcases List.length_eq_one.mp hlen1 with ⟨c0, hc0⟩
  refine ⟨c0, hc0, ?_⟩
  have hm : c0 ∈ cols.filter (fun c => renameKey c == f) := by
    rw [hc0]
    exact List.mem_cons_self _ _
  have := (List.mem_filter.mp hm).2
  simpa using this

lemma renameRow_frameRow (cols : List String) (r : Record) :
    renameRow (frameRow cols r) = cols.map (fun c => (renameKey c, lookupField r c)) := by
  unfold renameRow frameRow
  rw [List.map_map]
  rfl

lemma filter_renamed_row (cols : List String) (r : Record) (f : String) :
    (cols.map (fun c => (renameKey c, lookupField r c))).filter (fun kv => kv.1 == f)
      = (cols.filter (fun c => renameKey c == f)).map
          (fun c => (renameKey c, lookupField r c)) := by
  rw [List.filter_map]
  rfl

lemma selected_feature_cell {ud : List Record} {r : Record} {f : String}
    (hr : r ∈ ud)
    (hpres : f ∈ (frameCols ud).map renameKey)
    (hcount : ((frameCols ud).filter (fun c => renameKey c == f)).length ≤ 1) :
    (renameRow (frameRow (frameCols ud) r)).filter (fun kv => kv.1 == f)
      = [(f, lookupField (renameRecord r) f)] := by
  rcases List.mem_map.mp hpres with ⟨c, hc, hcf⟩
  obtain ⟨c0, hfil, hc0f⟩ := filter_eq_singleton hcount ⟨c, hc, hcf⟩
  rw [renameRow_frameRow, filter_renamed_row, hfil]
  have huniq : ∀ kv ∈ r, renameKey kv.1 = f → kv.1 = c0 := by
    intro kv hkv hkvf
    have hkc : kv.1 ∈ frameCols ud := (mem_frameCols ud kv.1).mpr ⟨r, hr, kv, hkv, rfl⟩
    have hmem : kv.1 ∈ (frameCols ud).filter (fun c => renameKey c == f) :=
      List.mem_filter.mpr ⟨hkc, by simp [hkvf]⟩
    rw [hfil] at hmem
    simpa using hmem
  rw [lookup_rename_eq hc0f huniq]
  simp [hc0f]

lemma flatMap_singleton_eq_map {α β : Type} (l : List α) (g : α → List β) (h : α → β)
    (hx : ∀ x ∈ l, g x = [h x]) : l.flatMap g = l.map h := by
  induction l with
  | nil => rfl
  | cons a as ih =>
    rw [List.flatMap_cons, List.map_cons, hx a (List.mem_cons_self _ _),
      ih (fun x hmem => hx x (List.mem_cons_of_mem _ hmem))]
    rfl

lemma selectCells_eq_selectRow {ud : List Record} {r : Record}
    (hr : r ∈ ud)
    (hpres : ∀ f ∈ features, f ∈ (frameCols ud).map renameKey)
    (hcount : ∀ f ∈ features, ((frameCols ud).filter (fun c => renameKey c == f)).length ≤ 1) :
    selectCells (renameRow (frameRow (frameCols ud) r)) = selectRow (renameRecord r) := by
  unfold selectCells selectRow
  exact flatMap_singleton_eq_map features _ _
    (fun f hf => selected_feature_cell hr (hpres f hf) (hcount f hf))

lemma preprocess_ok_frame {ud : List Record} {out : List FeatureRow}
    (h : preprocess_user_data ud = .ok out) :
    out = ud.map (frameRowFun (frameCols ud))
    ∧ ∀ f ∈ features, f ∈ (frameCols ud).map renameKey := by
  unfold preprocess_user_data at h
  split at h
  next hcond =>
    injection h with h
    exact ⟨h.symm, hcond⟩
  next => exact Except.noConfusion h

lemma frameRowFun_eq_mapRow {ud : List Record} {r : Record} (hr : r ∈ ud)
    (hpres : ∀ f ∈ features, f ∈ (frameCols ud).map renameKey)
    (hcount : ∀ f ∈ features, ((frameCols ud).filter (fun c => renameKey c == f)).length ≤ 1) :
    frameRowFun (frameCols ud) r = mapRow r := by
  unfold frameRowFun mapRow
  rw [selectCells_eq_selectRow hr hpres hcount]

lemma mapRow_keys (r : Record) : (mapRow r).map Prod.fst = features := by
  simp [mapRow, convertRow, selectRow, features]

lemma preprocess_error_of_missing_column {ud : List Record} {f : String}
    (hf : f ∈ features) (hnone : ∀ r ∈ ud, lookupField (renameRecord r) f = none) :
    preprocess_user_data ud = .error .schemaError := by
  unfold preprocess_user_data
  rw [if_neg]
  intro hall
  have hpres := hall f hf
  rcases List.mem_map.mp hpres with ⟨c, hc, hcf⟩
  rcases (mem_frameCols ud c).mp hc with ⟨r, hr, kv, hkv, hkvc⟩
  have hsome := lookup_rename_isSome (r := r) (f := f) ⟨kv, hkv, by rw [hkvc]; exact hcf⟩
  rw [hnone r hr] at hsome
  simp at hsome

lemma mem_fetch_records {db : List DBRecord} {uid : String} {date : Nat} {r : DBRecord} :
    r ∈ fetch_records db uid date ↔ r ∈ db ∧ matchesQuery uid date r = true := by
  unfold fetch_records
  rw [List.mem_insertionSort, List.mem_filter]

lemma sorted_fetch_records (db : List DBRecord) (uid : String) (date : Nat) :
    List.Sorted byTime (fetch_records db uid date) :=
  List.sorted_insertionSort byTime (db.filter (matchesQuery uid date))

/-! ## Claim theorems -/

/-- Claim C1 (code evaluation at the failing input): contrary to the claim,
`convert_sleep_duration_to_float("garbage")` does not fail — neither branch
condition holds, `hours` and `minutes` keep their initial zeros, and the
function silently returns `0.0`.  This is the silent-default behaviour the
spec itself flags as a latent defect (spec sections 7 and 9). -/
theorem c1_garbage_silent_zero :
    convert_sleep_duration_to_float (.str "garbage") = some 0 := by
  have h : convert_sleep_duration_to_float (.str "garbage")
      = some (((0 : Nat) : ℚ) + ((0 : Nat) : ℚ) / 60) := rfl
  rw [h]
  norm_num

/-- Claim C2: on the three canonical single-space duration forms with
non-negative integer tokens, the parser returns exactly `H + M/60`, `H`,
and `M/60` respectively. -/
theorem c2_canonical_forms (d1 d2 : List Char)
    (h1 : d1 ≠ []) (hd1 : allDigits d1 = true)
    (h2 : d2 ≠ []) (hd2 : allDigits d2 = true) :
    convert_sleep_duration_to_float
        (.str (String.mk (d1 ++ (' ' :: ('h' :: ('r' :: (' ' :: (d2 ++ (' ' :: ('m' :: ('i' :: ('n' :: []))))))))))))
      = some ((digitsVal d1 : ℚ) + (digitsVal d2 : ℚ) / 60)
    ∧ convert_sleep_duration_to_float (.str (String.mk (d1 ++ (' ' :: ('h' :: ('r' :: []))))))
      = some (digitsVal d1 : ℚ)
    ∧ convert_sleep_duration_to_float (.str (String.mk (d2 ++ (' ' :: ('m' :: ('i' :: ('n' :: [])))))))
      = some ((digitsVal d2 : ℚ) / 60) := by
  refine ⟨?_, ?_, ?_⟩
  · exact convert_hrmin_shape d1 [' '] [' '] d2 [' '] [] h1 hd1 h2 hd2 rfl rfl rfl
  · exact convert_hr_shape d1 [' '] [] h1 hd1 rfl (no_min_in_dwhr d1 [' '] hd1 rfl)
  · exact convert_min_shape d2 [' '] [] h2 hd2 rfl (no_hr_in_dwmin d2 [' '] hd2 rfl)

/-- Witness for C2 at `"3 hr 45 min"`, `"3 hr"`, `"45 min"`. -/
theorem c2_canonical_forms_witness :
    convert_sleep_duration_to_float
        (.str (String.mk (['3'] ++ (' ' :: ('h' :: ('r' :: (' ' :: (['4', '5'] ++ (' ' :: ('m' :: ('i' :: ('n' :: []))))))))))))
      = some ((digitsVal ['3'] : ℚ) + (digitsVal ['4', '5'] : ℚ) / 60)
    ∧ convert_sleep_duration_to_float (.str (String.mk (['3'] ++ (' ' :: ('h' :: ('r' :: []))))))
      = some (digitsVal ['3'] : ℚ)
    ∧ convert_sleep_duration_to_float (.str (String.mk (['4', '5'] ++ (' ' :: ('m' :: ('i' :: ('n' :: [])))))))
      = some ((digitsVal ['4', '5'] : ℚ) / 60) :=
  c2_canonical_forms ['3'] ['4', '5'] (by decide) (by decide) (by decide) (by decide)

/-- Claim C8 counterexample: recognition is not case-tolerant and not
tolerant of leading whitespace.  `"6 HR 30 MIN"` and `" 6 hr 30 min"` both
fall through to the silent `0.0`, disagreeing with the canonical form's
value `6.5`. -/
theorem c8_case_whitespace_counterexample :
    convert_sleep_duration_to_float (.str "6 HR 30 MIN") = some 0
    ∧ convert_sleep_duration_to_float (.str " 6 hr 30 min") = some 0
    ∧ convert_sleep_duration_to_float (.str "6 hr 30 min") = some (13 / 2)
    ∧ (0 : ℚ) ≠ 13 / 2 := by
  have ha : convert_sleep_duration_to_float (.str "6 HR 30 MIN")
      = some (((0 : Nat) : ℚ) + ((0 : Nat) : ℚ) / 60) := rfl
  have hb : convert_sleep_duration_to_float (.str " 6 hr 30 min")
      = some (((0 : Nat) : ℚ) + ((0 : Nat) : ℚ) / 60) := rfl
  have hc : convert_sleep_duration_to_float (.str "6 hr 30 min")
      = some (((6 : Nat) : ℚ) + ((30 : Nat) : ℚ) / 60) := rfl
  refine ⟨?_, ?_, ?_, by norm_num⟩
  · rw [ha]; norm_num
  · rw [hb]; norm_num
  · rw [hc]; norm_num

/-- Claim C8 as amended: tolerance holds only for the amount of internal
whitespace — any runs of whitespace (possibly empty) between the number and
unit tokens, lowercase units, pattern anchored at the start — with the same
value as the canonical form. -/
theorem c8_amended_internal_whitespace (d1 d2 w1 w2 w3 : List Char)
    (h1 : d1 ≠ []) (hd1 : allDigits d1 = true)
    (h2 : d2 ≠ []) (hd2 : allDigits d2 = true)
    (hw1 : allWs w1 = true) (hw2 : allWs w2 = true) (hw3 : allWs w3 = true) :
    convert_sleep_duration_to_float
        (.str (String.mk (d1 ++ (w1 ++ (hrTok ++ (w2 ++ (d2 ++ (w3 ++ minTok))))))))
      = some ((digitsVal d1 : ℚ) + (digitsVal d2 : ℚ) / 60)
    ∧ convert_sleep_duration_to_float (.str (String.mk (d1 ++ (w1 ++ hrTok))))
      = some (digitsVal d1 : ℚ)
    ∧ convert_sleep_duration_to_float (.str (String.mk (d2 ++ (w3 ++ minTok))))
      = some ((digitsVal d2 : ℚ) / 60) := by
  refine ⟨?_, ?_, ?_⟩
  · have h := convert_hrmin_shape d1 w1 w2 d2 w3 [] h1 hd1 h2 hd2 hw1 hw2 hw3
    simpa using h
  · have h := convert_hr_shape d1 w1 [] h1 hd1 hw1 (by simpa using no_min_in_dwhr d1 w1 hd1 hw1)
    simpa using h
  · have h := convert_min_shape d2 w3 [] h2 hd2 hw3 (by simpa using no_hr_in_dwmin d2 w3 hd2 hw3)
    simpa using h

/-- Witness for the amended C8 at `"6  hr  30  min"`, `"6hr"`, `"30min"`. -/
theorem c8_amended_internal_whitespace_witness :
    convert_sleep_duration_to_float
        (.str (String.mk (['6'] ++ ([' ', ' '] ++ (hrTok ++ ([' ', ' '] ++ (['3', '0'] ++ ([' ', ' '] ++ minTok))))))))
      = some ((digitsVal ['6'] : ℚ) + (digitsVal ['3', '0'] : ℚ) / 60)
    ∧ convert_sleep_duration_to_float (.str (String.mk (['6'] ++ ([] ++ hrTok))))
      = some (digitsVal ['6'] : ℚ)
    ∧ convert_sleep_duration_to_float (.str (String.mk (['3', '0'] ++ ([] ++ minTok))))
      = some ((digitsVal ['3', '0'] : ℚ) / 60) :=
  c8_amended_internal_whitespace ['6'] ['3', '0'] [' ', ' '] [' ', ' '] []
    (by decide) (by decide) (by decide) (by decide) (by decide) (by decide) (by decide)

/-- Claim C10: each regex only has to match a prefix of the input (`re.match`
is anchored but not full-match), so arbitrary trailing text is ignored:
a string beginning with digits, whitespace, `hr` that does not contain `min`
yields the hours value; likewise for the `hr ... min` and `min`-only
branches (the latter provided the string does not contain `hr`). -/
theorem c10_trailing_text (d1 d2 w1 w2 w3 rest : List Char)
    (h1 : d1 ≠ []) (hd1 : allDigits d1 = true)
    (h2 : d2 ≠ []) (hd2 : allDigits d2 = true)
    (hw1 : allWs w1 = true) (hw2 : allWs w2 = true) (hw3 : allWs w3 = true) :
    (containsTok minTok (d1 ++ (w1 ++ (hrTok ++ rest))) = false →
      convert_sleep_duration_to_float (.str (String.mk (d1 ++ (w1 ++ (hrTok ++ rest)))))
        = some (digitsVal d1 : ℚ))
    ∧ convert_sleep_duration_to_float
        (.str (String.mk (d1 ++ (w1 ++ (hrTok ++ (w2 ++ (d2 ++ (w3 ++ (minTok ++ rest)))))))))
      = some ((digitsVal d1 : ℚ) + (digitsVal d2 : ℚ) / 60)
    ∧ (containsTok hrTok (d1 ++ (w1 ++ (minTok ++ rest))) = false →
      convert_sleep_duration_to_float (.str (String.mk (d1 ++ (w1 ++ (minTok ++ rest)))))
        = some ((digitsVal d1 : ℚ) / 60)) := by
  refine ⟨?_, ?_, ?_⟩
  · intro hmin
    exact convert_hr_shape d1 w1 rest h1 hd1 hw1 hmin
  · exact convert_hrmin_shape d1 w1 w2 d2 w3 rest h1 hd1 h2 hd2 hw1 hw2 hw3
  · intro hhr
    exact convert_min_shape d1 w1 rest h1 hd1 hw1 hhr

/-- Witness for C10 at `"5 hrs of sleep"` (= 5 hours despite the trailing
text). -/
theorem c10_trailing_text_witness :
    convert_sleep_duration_to_float
        (.str (String.mk (['5'] ++ ([' '] ++ (hrTok ++ ['s', ' ', 'o', 'f', ' ', 's', 'l', 'e', 'e', 'p'])))))
      = some (digitsVal ['5'] : ℚ) :=
  (c10_trailing_text ['5'] ['1'] [' '] [] [] ['s', ' ', 'o', 'f', ' ', 's', 'l', 'e', 'e', 'p']
    (by decide) (by decide) (by decide) (by decide) (by decide) (by decide) (by decide)).1
    (by decide)

/-- Claim C3: the selection window is half-open `[start, start + 1 day)`
with `start` midnight of the date — for records of the given user,
membership in the result is exactly the window condition, a record at
`start` is selected, a record at `start + 1 day` is never selected — and
the result is in ascending timestamp order. -/
theorem c3_window_halfopen_sorted (db : List DBRecord) (uid : String) (date : Nat) :
    (∀ r ∈ db, r.uid = uid →
      (r ∈ fetch_records db uid date ↔
        date * secondsPerDay ≤ r.createdAt
          ∧ r.createdAt < date * secondsPerDay + secondsPerDay))
    ∧ (∀ r ∈ db, r.uid = uid → r.createdAt = date * secondsPerDay →
        r ∈ fetch_records db uid date)
    ∧ (∀ r : DBRecord, r.createdAt = date * secondsPerDay + secondsPerDay →
        r ∉ fetch_records db uid date)
    ∧ List.Sorted byTime (fetch_records db uid date) := by
  refine ⟨?_, ?_, ?_, sorted_fetch_records db uid date⟩
  · intro r hr huid
    rw [mem_fetch_records]
    simp only [matchesQuery, Bool.and_eq_true, beq_iff_eq, decide_eq_true_eq]
    constructor
    · rintro ⟨-, ⟨-, h1⟩, h2⟩
      exact ⟨h1, h2⟩
    · rintro ⟨h1, h2⟩
      exact ⟨hr, ⟨huid, h1⟩, h2⟩
  · intro r hr huid hts
    rw [mem_fetch_records]
    refine ⟨hr, ?_⟩
    simp only [matchesQuery, Bool.and_eq_true, beq_iff_eq, decide_eq_true_eq]
    refine ⟨⟨huid, hts.symm.le⟩, ?_⟩
    rw [hts]
    exact Nat.lt_add_of_pos_right (by norm_num [secondsPerDay])
  · intro r hts hmem
    rw [mem_fetch_records] at hmem
    obtain ⟨-, hq⟩ := hmem
    simp only [matchesQuery, Bool.and_eq_true, beq_iff_eq, decide_eq_true_eq] at hq
    obtain ⟨-, hlt⟩ := hq
    rw [hts] at hlt
    exact lt_irrefl _ hlt

/-- Witness for C3 on day 0: the record timestamped exactly at midnight is
selected, the record timestamped exactly at the next midnight is not. -/
theorem c3_window_halfopen_sorted_witness :
    (⟨"U1", 0, sampleRecord⟩ : DBRecord) ∈ fetch_records dbBoundary "U1" 0
    ∧ (⟨"U1", secondsPerDay, sampleRecord⟩ : DBRecord) ∉ fetch_records dbBoundary "U1" 0 := by
  have h := c3_window_halfopen_sorted dbBoundary "U1" 0
  constructor
  · exact h.2.1 ⟨"U1", 0, sampleRecord⟩
      (List.mem_cons_of_mem _ (List.mem_cons_self _ _)) rfl rfl
  · exact h.2.2.1 ⟨"U1", secondsPerDay, sampleRecord⟩ rfl

/-- Claim C4 counterexample: in a two-record request where the other record
supplies the `oxygenAvg` column, a record with `oxygenAvg` absent does not
make the mapping fail — the frame's columns are the union of the rows'
keys, the missing cell becomes `none` (NaN) — and the model is invoked
(invocation count 1), contradicting the claim's universal per-record
abort. -/
theorem c4_batch_counterexample :
    lookupField sampleMissing "oxygenAvg" = none
    ∧ preprocess_user_data [sampleRecord, sampleMissing]
        = .ok ([sampleRecord, sampleMissing].map mapRow)
    ∧ make_prediction stubModel [sampleRecord, sampleMissing] = (some 7, 1) :=
  ⟨rfl, rfl, rfl⟩

/-- Claim C4 as amended: when a feature column is absent from the whole
renamed frame — no selected record carries the source field (or the target
name directly) — the mapping fails with `SchemaError` and the pipeline
aborts with the model never invoked; a single record missing a source
field is the particular case. -/
theorem c4_amended_missing_column (ud : List Record) (f : String)
    (hf : f ∈ features) (hnone : ∀ r ∈ ud, lookupField (renameRecord r) f = none) :
    preprocess_user_data ud = .error .schemaError
    ∧ ∀ model : Model, make_prediction model ud = (none, 0) := by
  have herr := preprocess_error_of_missing_column hf hnone
  exact ⟨herr, fun model => by simp [make_prediction, herr]⟩

/-- Witness for the amended C4: a single record missing `oxygenAvg`. -/
theorem c4_amended_missing_column_witness :
    preprocess_user_data [sampleMissing] = .error .schemaError
    ∧ make_prediction stubModel [sampleMissing] = (none, 0) := by
  have hn : ∀ r ∈ [sampleMissing], lookupField (renameRecord r) "Oxygen_Saturation" = none := by
    intro r hr
    rw [List.mem_singleton] at hr
    subst hr
    rfl
  have h := c4_amended_missing_column [sampleMissing] "Oxygen_Saturation" (by decide) hn
  exact ⟨h.1, h.2 stubModel⟩

/-- Claim C5 counterexample: a record carrying an extra field already named
`Oxygen_Saturation` next to `oxygenAvg` makes `rename` produce duplicate
column labels, and `df[features]` then returns six columns — both oxygen
columns retained — so the output row does not have exactly the five schema
fields. -/
theorem c5_duplicate_label_counterexample :
    (preprocess_user_data [recordDupOxygen]).map
        (fun rows => rows.map (fun row => row.map Prod.fst))
      = .ok [sixLabels]
    ∧ sixLabels ≠ features :=
  ⟨rfl, by decide⟩

/-- Claim C5 as amended: provided no two frame columns rename to the same
feature label (in particular, no record carries an extra field already
bearing a target-schema name next to its source field), every output row
has exactly the five feature fields, in the fixed schema order, with
sources renamed per the mapping and every other field dropped — it is the
per-record renamed projection of its input record. -/
theorem c5_schema_exact_unique_labels (ud : List Record) (out : List FeatureRow)
    (hok : preprocess_user_data ud = .ok out)
    (hcount : ∀ f ∈ features, ((frameCols ud).filter (fun c => renameKey c == f)).length ≤ 1) :
    ∀ row ∈ out, row.map Prod.fst = features ∧ ∃ r ∈ ud, row = mapRow r := by
  obtain ⟨hout, hpres⟩ := preprocess_ok_frame hok
  subst hout
  intro row hrow
  rcases List.mem_map.mp hrow with ⟨r, hr, rfl⟩
  rw [frameRowFun_eq_mapRow hr hpres hcount]
  exact ⟨mapRow_keys r, r, hr, rfl⟩

/-- Witness for the amended C5 on the scenario record (which carries an
extra `deviceId` field, harmlessly dropped). -/
theorem c5_schema_exact_unique_labels_witness :
    (mapRow sampleRecord).map Prod.fst = features
    ∧ ∃ r ∈ [sampleRecord], mapRow sampleRecord = mapRow r :=
  c5_schema_exact_unique_labels [sampleRecord] ([sampleRecord].map mapRow) rfl
    (by decide) (mapRow sampleRecord) (by simp)

/-- Claim C6: an empty selection is not an error — the pipeline reports the
NoData outcome, with no score and the model not invoked (the outcome is
the same for every model, and the invocation count is 0). -/
theorem c6_empty_noData (db : List DBRecord) (uid : String) (date : Nat)
    (h : fetch_records db uid date = []) (model : Model) :
    fetch_user_data db uid date model = (.noData, 0) := by
  simp [fetch_user_data, h]

/-- Witness for C6: a store whose only record lies outside the requested
day. -/
theorem c6_empty_noData_witness :
    fetch_user_data dbOtherDay "U1" 0 stubModel = (.noData, 0) :=
  c6_empty_noData dbOtherDay "U1" 0 rfl stubModel

/-- Claim C7: on a non-empty selection whose mapping succeeds and whose
model output is non-empty, the pipeline invokes the model exactly once and
returns the first element of the model's prediction sequence as the
score. -/
theorem c7_first_prediction (db : List DBRecord) (uid : String) (date : Nat)
    (model : Model) (out : List FeatureRow) (p : ℚ) (ps : List ℚ)
    (hne : fetch_records db uid date ≠ [])
    (hok : preprocess_user_data ((fetch_records db uid date).map DBRecord.fields) = .ok out)
    (hmodel : model out = p :: ps) :
    fetch_user_data db uid date model = (.success p, 1) := by
  have hie : (fetch_records db uid date).isEmpty = false := by
    cases hfr : fetch_records db uid date with
    | nil => exact absurd hfr hne
    | cons a l => rfl
  simp [fetch_user_data, make_prediction, hie, hok, hmodel]

/-- Witness for C7: the spec's end-to-end scenario — user U1, one matching
record at 08:00, stub model returning 7 — scores 7 with one model call. -/
theorem c7_first_prediction_witness :
    fetch_user_data dbOneRecord "U1" 0 stubModel = (.success 7, 1) :=
  c7_first_prediction dbOneRecord "U1" 0 stubModel ([sampleRecord].map mapRow) 7 []
    (by rw [show fetch_records dbOneRecord "U1" 0 = [⟨"U1", 28800, sampleRecord⟩] from rfl]
        exact List.cons_ne_nil _ _)
    rfl rfl

/-- Claim C9 counterexample: one record carrying an extra field named
`Oxygen_Saturation` injects a duplicate selected column into *every* row of
the frame, so the output rows are not the per-record `mapRow` image of
their records — already the label lists differ (six labels per row against
the five of the per-record projection). -/
theorem c9_duplicate_label_counterexample :
    (preprocess_user_data [recordDupOxygen, sampleRecord]).map
        (fun rows => rows.map (fun row => row.map Prod.fst))
      = .ok [sixLabels, sixLabels]
    ∧ ([recordDupOxygen, sampleRecord].map mapRow).map (fun row => row.map Prod.fst)
      = [features, features]
    ∧ ([sixLabels, sixLabels] : List (List String)) ≠ [features, features] :=
  ⟨rfl, rfl, by decide⟩

/-- Claim C9 as amended: the mapper is deterministic and order-preserving —
its output is the element-wise, order-preserving image of the record list
under one function of the frame's column layout, so applying it twice to
the same input yields the same output — and it is a pure *per-record*
projection (row i = `mapRow` of record i) exactly when no two frame columns
rename to the same feature label. -/
theorem c9_projection_unique_labels (ud : List Record) (out : List FeatureRow)
    (hok : preprocess_user_data ud = .ok out) :
    out = ud.map (frameRowFun (frameCols ud))
    ∧ ((∀ f ∈ features, ((frameCols ud).filter (fun c => renameKey c == f)).length ≤ 1) →
        out = ud.map mapRow) := by
  obtain ⟨hout, hpres⟩ := preprocess_ok_frame hok
  refine ⟨hout, fun hcount => ?_⟩
  subst hout
  exact List.map_congr_left (fun r hr => frameRowFun_eq_mapRow hr hpres hcount)

/-- Witness for the amended C9 on the scenario record: the frame image and
the per-record image agree. -/
theorem c9_projection_unique_labels_witness :
    [sampleRecord].map mapRow = [sampleRecord].map (frameRowFun (frameCols [sampleRecord]))
    ∧ [sampleRecord].map mapRow = [sampleRecord].map mapRow :=
  have h := c9_projection_unique_labels [sampleRecord] ([sampleRecord].map mapRow) rfl
  ⟨h.1, h.2 (by decide)⟩

end Webapp
